import Mathlib

/-!
Shallow embedding of the `analisi_comp` sales-order analytics pipeline
(`src/scripts/A_import.py`, `B_cleaning.py`, `C_shaping.py`, `D_output.py`).

A pandas DataFrame is modelled as a list of records together with boolean
flags recording which derived columns are present (pandas column presence is
table-wide, so the flags live on the table, not on the rows).  Derived row
fields hold default junk until the corresponding flag is set.  Machine
integers are `Int` (Python ints are unbounded), quantities compared against
quantiles are embedded in `ℚ` (pandas computes float quantiles by linear
interpolation; all inputs here are small integers, so rational arithmetic is
exact and agrees with the float computation on every claim instance).
-/

namespace AnalisiComp

/-- One row of the shaped Order Record table (post-cleaning columns plus the
derived columns added by `C_shaping.py`).  Derived fields default to junk and
are meaningful only when the matching `DF.has_*` flag is set. -/
structure Row where
  release : String
  brand : String
  customer : String
  customer_sold_to : String
  division : String
  dedalo_area : String
  acquisition_mode_group : String
  creation_yearweek : Int
  planned_delivery_yearweek : Int
  qty : Int
  first_order : Bool := false
  new_acquisition_mode : String := ""
  common_creation_yearweek : Int := 0
  common_planned_delivery_yearweek : Int := 0
  till_today : String := ""
  comp : String := ""
  comp_today : String := ""
  outlier : Bool := false
  comp_no_out : String := ""
  comp_today_no_out : String := ""
  deriving DecidableEq

/-- The shaped table: rows plus column-presence flags (mirroring the
`if not 'col' in df.columns` guards of `C_shaping.py`). -/
structure DF where
  rows : List Row
  has_new_acquisition_mode : Bool := false
  has_common : Bool := false
  has_till_today : Bool := false
  has_comp : Bool := false
  has_comp_today : Bool := false
  has_outlier : Bool := false
  has_comp_no_out : Bool := false
  has_comp_today_no_out : Bool := false
  deriving DecidableEq

/-! ### Kernel-computable string primitives

Python string comparison is lexicographic on code points, `int(s)` parses a
digit string, and `s.split(".")` splits on every dot.  The library versions
of these (`String.le`, `String.toNat?`, `String.splitOn`) are not reducible
by the kernel, so they are reimplemented structurally over `String.data`;
the semantics is the same. -/

/-- Lexicographic strict order on code-point lists (Python `<` on strings). -/
def charListLt : List Char → List Char → Bool
  | [], [] => false
  | [], _ :: _ => true
  | _ :: _, [] => false
  | a :: as, b :: bs => if a = b then charListLt as bs else decide (a < b)

/-- Python `a < b` on strings. -/
def strLt (a b : String) : Bool := charListLt a.data b.data

/-- Python `a <= b` on strings. -/
def strLe (a b : String) : Bool := if a = b then true else strLt a b

/-- Python `int(s)` on a plain digit string (`none` when `s` is empty or has
a non-digit, where Python raises `ValueError`). -/
def digitsToNat (cs : List Char) : Option Nat :=
  if cs = [] then none
  else cs.foldl
    (fun acc c =>
      match acc with
      | none => none
      | some n => if c.isDigit then some (n * 10 + (c.toNat - 48)) else none)
    (some 0)

/-- Python `s.split(".")` on a code-point list (every dot separates; empty
pieces are kept). -/
def splitDot : List Char → List Char → List (List Char)
  | [], acc => [acc.reverse]
  | c :: cs, acc => if c = '.' then acc.reverse :: splitDot cs [] else splitDot cs (c :: acc)

/-! ### Date arithmetic for `pd.to_datetime(yw.astype(str) + '0', format='%Y%W%w')`

`%W` weeks start on Monday; week 1 is the first week containing a Monday and
days before it belong to week 0; `%w` = `0` selects Sunday, i.e. the last day
of a `%W` week.  `daysBefore y` is the number of days of the proleptic
Gregorian calendar strictly before January 1 of year `y`; day 0 (January 1 of
year 1) is a Monday, so weekdays (Monday = 0) are day numbers mod 7. -/

/-- Days strictly before January 1 of year `y` (proleptic Gregorian). -/
def daysBefore (y : Nat) : Nat :=
  365 * (y - 1) + (y - 1) / 4 + (y - 1) / 400 - (y - 1) / 100

/-- Weekday of January 1 of year `y`, with Monday = 0 (Python `.weekday()`). -/
def firstWeekday (y : Nat) : Nat := daysBefore y % 7

/-- Absolute day number of the date CPython's `strptime` produces for the
string `toString yw ++ "0"` under format `%Y%W%w`: the Sunday closing week
`yw % 100` of year `yw / 100`. -/
def yearweekToDay (yw : Nat) : Nat :=
  let y := yw / 100
  let w := yw % 100
  let fw := firstWeekday y
  let julian := if w = 0 then 1 + 6 - fw else 1 + (7 - fw) % 7 + 7 * (w - 1) + 6
  daysBefore y + julian - 1

/-- The (`release`,`brand`,`customer`,`dedalo_area`) grouping key used by
`label_first_order` (a genuine pandas `groupby` on the four columns). -/
def groupKeyFO (r : Row) : String × String × String × String :=
  (r.release, r.brand, r.customer, r.dedalo_area)

/-- `transform('min')` of the creation date over the row's
(`release`,`brand`,`customer`,`dedalo_area`) group. -/
def groupMinDay (rows : List Row) (r : Row) : Nat :=
  (rows.filter (fun s => groupKeyFO s = groupKeyFO r)).foldl
    (fun m s => min m (yearweekToDay s.creation_yearweek.toNat))
    (yearweekToDay r.creation_yearweek.toNat)

/-- A `foldl min` over mapped values is bounded by its seed and by every
mapped element. -/
lemma foldl_min_le (f : Row → Nat) (l : List Row) : ∀ (a : Nat),
    l.foldl (fun m s => min m (f s)) a ≤ a
    ∧ ∀ s ∈ l, l.foldl (fun m s => min m (f s)) a ≤ f s := by
  induction l with
  | nil =>
    intro a
    exact ⟨le_refl a, fun s hs => absurd hs (List.not_mem_nil s)⟩
  | cons b t ih =>
    intro a
    obtain ⟨h1, h2⟩ := ih (min a (f b))
    refine ⟨le_trans h1 (min_le_left a (f b)), ?_⟩
    intro s hs
    rcases List.mem_cons.mp hs with hs | hs
    · subst hs
      exact le_trans h1 (min_le_right a (f s))
    · exact h2 s hs

/-- A `foldl min` over mapped values is attained at its seed or at some
element. -/
lemma foldl_min_attained (f : Row → Nat) (l : List Row) : ∀ (a : Nat),
    l.foldl (fun m s => min m (f s)) a = a
    ∨ ∃ s ∈ l, l.foldl (fun m s => min m (f s)) a = f s := by
  induction l with
  | nil =>
    intro a
    exact Or.inl rfl
  | cons b t ih =>
    intro a
    rcases ih (min a (f b)) with h | ⟨s, hs, h⟩
    · rcases min_cases a (f b) with ⟨he, _⟩ | ⟨he, _⟩
      · exact Or.inl (by rw [List.foldl_cons, h, he])
      · exact Or.inr ⟨b, by simp, by rw [List.foldl_cons, h, he]⟩
    · exact Or.inr ⟨s, by simp [hs], by rw [List.foldl_cons, h]⟩

/-- `label_first_order` (`C_shaping.py` lines 57-96).  `week_diff` is
`(creation date - group min date).days / 7` and `first_order` is
`week_diff < week_inside_first`; since the day difference is a nonnegative
integer this equals `days < 7 * week_inside_first`, embedded here exactly.
The `np.select` reclassification takes the first matching condition. -/
def label_first_order (df : DF) (week_inside_first : Int) : DF :=
  { df with
    rows := df.rows.map (fun r =>
      let d : Int := yearweekToDay r.creation_yearweek.toNat
      let fo : Bool := decide (d - (groupMinDay df.rows r : Int) < 7 * week_inside_first)
      let nam : String :=
        if fo = true && r.acquisition_mode_group = "REP" then "REP FIRST ORDER"
        else if r.acquisition_mode_group = "RED CARPET" then "EVENT"
        else if fo = false && r.acquisition_mode_group = "REP" then "REP REPLENISHMENT"
        else "REPLENISHMENT"
      { r with first_order := fo, new_acquisition_mode := nam })
    has_new_acquisition_mode := true }

/-- `groupMinDay` is a lower bound on the creation dates of the row's
(`release`,`brand`,`customer`,`dedalo_area`) group. -/
lemma groupMinDay_le (rows : List Row) (r : Row) :
    ∀ s ∈ rows, groupKeyFO s = groupKeyFO r →
      groupMinDay rows r ≤ yearweekToDay s.creation_yearweek.toNat := by
  intro s hs hk
  exact (foldl_min_le (fun s => yearweekToDay s.creation_yearweek.toNat)
      (rows.filter (fun s => groupKeyFO s = groupKeyFO r))
      (yearweekToDay r.creation_yearweek.toNat)).2 s
    (List.mem_filter.mpr ⟨hs, by simp [hk]⟩)

/-- `groupMinDay` is attained: it is the creation date of the row itself or
of some row of its group. -/
lemma groupMinDay_attained (rows : List Row) (r : Row) :
    groupMinDay rows r = yearweekToDay r.creation_yearweek.toNat
    ∨ ∃ s ∈ rows, groupKeyFO s = groupKeyFO r
        ∧ groupMinDay rows r = yearweekToDay s.creation_yearweek.toNat := by
  rcases foldl_min_attained (fun s => yearweekToDay s.creation_yearweek.toNat)
      (rows.filter (fun s => groupKeyFO s = groupKeyFO r))
      (yearweekToDay r.creation_yearweek.toNat) with h | ⟨s, hs, h⟩
  · exact Or.inl h
  · have hm := List.mem_filter.mp hs
    exact Or.inr ⟨s, hm.1, by simpa using hm.2, h⟩

/-- `release[:4]`, the year prefix of the release identifier (Python slices
by code point). -/
def year_release (r : Row) : String := String.mk (r.release.data.take 4)

/-- `max(df['year_release'].unique())`: the lexicographic maximum of the
year strings (Python `max` over strings; folding over all rows equals the
maximum over the distinct values, with `""` as the neutral initial value
since `""` precedes every string). -/
def maxYearStr (rows : List Row) : String :=
  rows.foldl (fun m r => if strLe m (year_release r) then year_release r else m) ""

/-- `create_common_creation_yearweek` (`C_shaping.py` lines 99-109): if the
column is already present the table is returned unchanged; otherwise
`diff = int(max_year) - int(release[:4])` and both yearweeks are shifted by
`diff * 100`.  `.astype(int)` on a non-numeric prefix raises in Python; the
embedding totalises it with `toNat?.getD 0` (all claims use numeric years). -/
def create_common_creation_yearweek (df : DF) : DF :=
  if df.has_common then df
  else
    let my : Int := ((digitsToNat (maxYearStr df.rows).data).getD 0 : Nat)
    { df with
      rows := df.rows.map (fun r =>
        let diff : Int := my - (((digitsToNat (year_release r).data).getD 0 : Nat) : Int)
        { r with
          common_creation_yearweek := r.creation_yearweek + diff * 100
          common_planned_delivery_yearweek := r.planned_delivery_yearweek + diff * 100 })
      has_common := true }

/-- The `group_id` column of `create_comp`: plain string concatenation of the
four dimension values separated by `'-'` (`C_shaping.py` line 113). -/
def group_id (r : Row) : String :=
  r.brand ++ "-" ++ r.customer ++ "-" ++ r.dedalo_area ++ "-" ++ r.new_acquisition_mode

/-- `groupby(key)['release'].nunique()` for the group of `k`: the number of
distinct releases among rows whose key string equals `k`. -/
def nuniqueRelease (rows : List Row) (key : Row → String) (k : String) : Nat :=
  (((rows.filter (fun r => key r = k)).map (fun r => r.release)).dedup).length

/-- `create_comp` (`C_shaping.py` lines 111-122): a row is `comp = 'Y'` iff
its `group_id` belongs to the index of groups whose distinct-release count is
exactly 2. -/
def create_comp (df : DF) : DF :=
  let keys := (df.rows.map group_id).dedup
  let groups_in_both_releases := keys.filter (fun k => nuniqueRelease df.rows group_id k = 2)
  { df with
    rows := df.rows.map (fun r =>
      { r with comp := if group_id r ∈ groups_in_both_releases then "Y" else "N" })
    has_comp := true }

/-- `create_till_today` (`C_shaping.py` lines 125-132).  The code compares
`common_creation_yearweek` with `int((date.today() - 7 days).strftime('%Y%W'))`;
the ambient date is not part of the table, so that cutoff is threaded in as
the parameter `todayYW`. -/
def create_till_today (df : DF) (todayYW : Int) : DF :=
  let df := create_common_creation_yearweek df
  { df with
    rows := df.rows.map (fun r =>
      { r with till_today := if r.common_creation_yearweek ≤ todayYW then "Y" else "N" })
    has_till_today := true }

/-- `create_comp_today` (`C_shaping.py` lines 135-155).  With
`week_inside_first = None` and `new_acquisition_mode` absent the Python code
would call `label_first_order(df, None)` and raise a `TypeError`; the
embedding totalises that unexercised branch with `getD 0` (every theorem
below enters with `new_acquisition_mode` present and `w = none`). -/
def create_comp_today (df : DF) (todayYW : Int) (w : Option Int := none) : DF :=
  let df := if df.has_new_acquisition_mode = false ∨ w ≠ none then
              label_first_order df (w.getD 0) else df
  let df := if df.has_comp = false then create_comp df else df
  let df := if df.has_till_today = false then create_till_today df todayYW else df
  let key := fun r => group_id r ++ r.till_today ++ r.comp
  let keys := (df.rows.map key).dedup
  let groups_in_both_releases := keys.filter (fun k => nuniqueRelease df.rows key k = 2)
  { df with
    rows := df.rows.map (fun r =>
      let pre : String := if key r ∈ groups_in_both_releases then "Y" else "N"
      { r with comp_today :=
          if r.till_today = "Y" ∧ r.comp = "Y" ∧ pre = "Y" then "Y" else "N" })
    has_comp_today := true }

/-- Exact unnormalized rational `num / den` (every constructor below keeps
`den` positive).  Pandas computes quantiles in binary floating point; on the
small integer quantities of this pipeline the float arithmetic is exact and
agrees with exact rational arithmetic, which is used here. -/
structure Frac where
  num : Int
  den : Int
  deriving DecidableEq

/-- Embed an integer as a fraction. -/
def Frac.ofInt (n : Int) : Frac := ⟨n, 1⟩

/-- `a ≤ b` by cross-multiplication (valid for positive denominators). -/
def Frac.le (a b : Frac) : Bool := decide (a.num * b.den ≤ b.num * a.den)

/-- Fraction addition (denominators multiply, no normalization). -/
def Frac.add (a b : Frac) : Frac := ⟨a.num * b.den + b.num * a.den, a.den * b.den⟩

/-- Fraction subtraction. -/
def Frac.sub (a b : Frac) : Frac := ⟨a.num * b.den - b.num * a.den, a.den * b.den⟩

/-- Fraction multiplication. -/
def Frac.mul (a b : Frac) : Frac := ⟨a.num * b.num, a.den * b.den⟩

/-- Python `max(a, b)`: `b` when `a ≤ b`, else `a`. -/
def Frac.fmax (a b : Frac) : Frac := if Frac.le a b then b else a

/-- The rational value a fraction denotes. -/
def Frac.toRat (a : Frac) : ℚ := (a.num : ℚ) / (a.den : ℚ)

/-- `Series.quantile(p)` with the default linear interpolation, for
`p = pnum / pden` with `0 ≤ pnum ≤ pden` and `0 < pden`:
`h = (n-1)·p`, and the value is `s[⌊h⌋] + (h-⌊h⌋)·(s[⌊h⌋+1] - s[⌊h⌋])` over
the ascending sort `s` of the values. -/
def quantileLinear (xs : List Int) (pnum pden : Int) : Frac :=
  let s := xs.insertionSort (fun a b => a ≤ b)
  let n := s.length
  let hnum := pnum * ((n : Int) - 1)
  let i : Nat := (hnum.fdiv pden).toNat
  let lo := s.getD i 0
  let hi := s.getD (min (i + 1) (n - 1)) 0
  Frac.add (Frac.ofInt lo) (Frac.mul ⟨hnum - (i : Int) * pden, pden⟩ (Frac.ofInt (hi - lo)))

/-- The (`brand`,`dedalo_area`,`new_acquisition_mode`) peer-group key of
`detect_outlier` (a genuine pandas `groupby` on the three columns). -/
def outKey (r : Row) : String × String × String :=
  (r.brand, r.dedalo_area, r.new_acquisition_mode)

/-- The `qty` values of the row's peer group. -/
def peerQty (rows : List Row) (r : Row) : List Int :=
  ((rows.filter (fun s => outKey s = outKey r)).map (fun s => s.qty))

/-- `detect_outlier` (`C_shaping.py` lines 158-212) for the default `'iqr'`
method: within each peer group, `outlier = not qty.between(max(2, Q1 - 1.5*IQR),
Q3 + 1.5*IQR)` with inclusive bounds.  `groupby(...).apply` reorders the rows
by sorted group key; the flags are computed row-wise here since no claim
concerns row order.  The `'mad'`/`'iso'`/`'svm'` branches and the unbound
result on an unknown tag are not exercised by any claim and are embedded as
the identity. -/
def detect_outlier (df : DF) (method : String := "iqr") : DF :=
  if method = "iqr" then
    { df with
      rows := df.rows.map (fun r =>
        let qs := peerQty df.rows r
        let q1 := quantileLinear qs 1 4
        let q3 := quantileLinear qs 3 4
        let iqr := Frac.sub q3 q1
        let lower := Frac.fmax (Frac.ofInt 2) (Frac.sub q1 (Frac.mul ⟨3, 2⟩ iqr))
        let upper := Frac.add q3 (Frac.mul ⟨3, 2⟩ iqr)
        { r with outlier :=
            if Frac.le lower (Frac.ofInt r.qty) && Frac.le (Frac.ofInt r.qty) upper
            then false else true })
      has_outlier := true }
  else df

/-- `create_comp_no_outliers` (`C_shaping.py` lines 215-225):
`comp_no_out = 'Y'` iff `outlier == False` and `comp == 'Y'`. -/
def create_comp_no_outliers (df : DF) (method : String := "iqr") : DF :=
  let df := if df.has_comp = false then create_comp df else df
  let df := if df.has_outlier = false then detect_outlier df method else df
  { df with
    rows := df.rows.map (fun r =>
      { r with comp_no_out := if r.outlier = false ∧ r.comp = "Y" then "Y" else "N" })
    has_comp_no_out := true }

/-- Python `str(bool)`: `"True"` / `"False"` (used by `astype(str)` on the
`outlier` column). -/
def pyBoolStr (b : Bool) : String := if b then "True" else "False"

/-- `create_comp_today_no_outliers` (`C_shaping.py` lines 227-249).  Note the
inner `create_comp_no_outliers(df)` call uses the default `'iqr'` method
regardless of `method`, as in the source (line 234). -/
def create_comp_today_no_outliers (df : DF) (todayYW : Int) (method : String := "iqr") : DF :=
  let df := if df.has_comp_today = false then create_comp_today df todayYW none else df
  let df := if df.has_outlier = false then detect_outlier df method else df
  let df := if df.has_comp_no_out = false then create_comp_no_outliers df "iqr" else df
  let key := fun r => group_id r ++ pyBoolStr r.outlier ++ r.comp_today
  let keys := (df.rows.map key).dedup
  let groups_in_both_releases := keys.filter (fun k => nuniqueRelease df.rows key k = 2)
  { df with
    rows := df.rows.map (fun r =>
      let pre : String := if key r ∈ groups_in_both_releases then "Y" else "N"
      { r with comp_today_no_out :=
          if r.outlier = false ∧ r.comp_today = "Y" ∧ pre = "Y" then "Y" else "N" })
    has_comp_today_no_out := true }

/-! ### Importer (`A_import.py`) and Writer (`D_output.py`)

Only the schema-level behaviour is embedded: a raw file is its extension plus
the column names of the parsed table (the claims concern extension dispatch
and the schema check, not cell contents). -/

/-- The input to `import_one_file`: the path suffix (extension, dot included)
and the column names of the table the reader would produce. -/
structure RawFile where
  suffix : String
  cols : List String
  deriving DecidableEq

/-- The error raised by `import_one_file` (`ValueError` in the source). -/
inductive ImportError where
  | UnsupportedFormat
  deriving DecidableEq

/-- The `new_col_name` renaming dictionary of `import_one_file`
(`A_import.py` lines 38-58). -/
def new_col_name : List (String × String) :=
  [("SAP - Order Type", "order_type"),
   ("NPI_Release", "release"),
   ("Brand - code", "brand"),
   ("Calendar - Planned Delivery Date - Date", "planned_delivery_date"),
   ("Planned Delivery Date: Month", "planned_delivery_month"),
   ("Calendar - Order Date - Year Week", "creation_yearweek"),
   ("Calendar - Planned Delivery Date - Year Week", "planned_delivery_yearweek"),
   ("Customer Sold To Description act", "customer_sold_to"),
   ("Customer: Code", "customer"),
   ("SAP Optical/Sun/Clip On Desc", "division"),
   ("Orders - KeyAccountCode", "key_account_code"),
   ("Subsidiary Name", "datest_name"),
   ("Short Trip - Datest Code", "datest"),
   ("Short Trip - DEDALO Area", "dedalo_area"),
   ("Acquisition Mode Desc", "acquisition_mode_desc"),
   ("Acquisition Mode Group", "acquisition_mode_group"),
   ("Orders - Specification", "order_specification"),
   ("Customer Sales: GTM Rating", "customer_type"),
   ("No Return Frame - TOTAL Order Qty", "qty")]

/-- `df.rename(columns=new_col_name)`: a column keeps its name unless the
dictionary maps it. -/
def renameCols (cols : List String) : List String :=
  cols.map (fun c => ((new_col_name.find? (fun p => p.1 = c)).map (fun p => p.2)).getD c)

/-- The expected canonical column set, `list(new_col_name.values())`. -/
def expected_cols : List String := new_col_name.map (fun p => p.2)

/-- The comparison computed (and discarded) by the schema check of
`import_one_file`: `sorted(df.columns.to_list()) == sorted(list(new_col_name.values()))`. -/
def schema_matches (cols : List String) : Bool :=
  decide ((renameCols cols).insertionSort (fun a b => strLe a b = true)
    = expected_cols.insertionSort (fun a b => strLe a b = true))

/-- `import_one_file` (`A_import.py` lines 59-83), returning the renamed
column list of the loaded table.  The source wraps the schema comparison in
`try: sorted(...) == sorted(...) except: raise ValueError(...)`: the
comparison's result is discarded and comparing two lists of strings can never
raise, so the `except` branch is dead and a mismatching schema is returned
successfully — embedded by evaluating `schema_matches` and dropping it. -/
def import_one_file (f : RawFile) : Except ImportError (List String) :=
  if f.suffix = ".xlsx" ∨ f.suffix = ".csv" ∨ f.suffix = ".parquet" then
    let renamed := renameCols f.cols
    let _ := schema_matches f.cols
    Except.ok renamed
  else Except.error ImportError.UnsupportedFormat

/-- The serialization formats `save` can dispatch to. -/
inductive SaveFormat where
  | xlsx
  | parquet
  | csv
  deriving DecidableEq

/-- `save` (`D_output.py` lines 7-16): the format is `name.split(".")[-1]`;
`some fmt` means the table is written in format `fmt`, and `none` models the
source falling through all three branches and returning without writing
anything and without raising. -/
def save (name : String) : Option SaveFormat :=
  let format := String.mk ((splitDot name.data []).getLastD [])
  if format = "xlsx" then some SaveFormat.xlsx
  else if format = "parquet" then some SaveFormat.parquet
  else if format = "csv" then some SaveFormat.csv
  else none

/-! ### Cleaner (`B_cleaning.py`) -/

/-- One pre-aggregation row as seen by the cleaner: the nine grouping
dimensions, `customer_type` (`none` = missing / NaN) and `qty`. -/
structure CRow where
  release : String
  brand : String
  planned_delivery_yearweek : Int
  creation_yearweek : Int
  customer : String
  customer_sold_to : String
  division : String
  dedalo_area : String
  acquisition_mode_group : String
  customer_type : Option String
  qty : Int
  deriving DecidableEq

/-- The cleaner's input table: rows plus the column-name list of the frame. -/
structure CDF where
  rows : List CRow
  cols : List String
  deriving DecidableEq

/-- One row of the grouped (post-`grouping`) table: the nine dimensions,
the summed `qty`, and the `launch_type` column added by the optional area
merge (junk until the merge happens). -/
structure GRow where
  release : String
  brand : String
  planned_delivery_yearweek : Int
  creation_yearweek : Int
  customer : String
  customer_sold_to : String
  division : String
  dedalo_area : String
  acquisition_mode_group : String
  qty : Int
  launch_type : String := ""
  deriving DecidableEq

/-- The grouped table with its column names. -/
structure GDF where
  rows : List GRow
  cols : List String
  deriving DecidableEq

/-- One row of the external area lookup (`Aree.xlsx`, columns
`dedalo_area`/`launch_type`). -/
structure AreaRow where
  dedalo_area : String
  launch_type : String
  deriving DecidableEq

/-- The error `cleaning` raises when the area merge changes the row count
(the `assert` on `B_cleaning.py` line 110). -/
inductive CleanError where
  | MergeCardinalityError
  deriving DecidableEq

/-- `DICT_CUSTOMER_TYPE` (`config.py`). -/
def DICT_CUSTOMER_TYPE : List (String × String) := [("BPF", "BP"), ("PF", "P")]

/-- `Series.replace(DICT_CUSTOMER_TYPE)` on one value. -/
def replaceCT (v : String) : String :=
  ((DICT_CUSTOMER_TYPE.find? (fun p => p.1 = v)).map (fun p => p.2)).getD v

/-- `Series.mode().iloc[0]`: among the values with maximal multiplicity,
pandas sorts ascending and `iloc[0]` takes the smallest; `none` when the
value list is empty (where the Python `iloc[0]` would raise). -/
def seriesMode (xs : List String) : Option String :=
  xs.dedup.foldl
    (fun best c =>
      match best with
      | none => some c
      | some b =>
          if xs.count c > xs.count b ∨ (xs.count c = xs.count b ∧ strLt c b = true) then some c
          else some b)
    none

/-- `replacing_values` (`B_cleaning.py` lines 6-34): map `customer_type`
through the dictionary, then `fillna` with the mode of the (replaced)
column.  When every value is missing the mode is empty and Python raises; the
embedding leaves the values missing in that case. -/
def replacing_values (df : CDF) : CDF :=
  let rows := df.rows.map (fun r => { r with customer_type := r.customer_type.map replaceCT })
  let m := seriesMode (rows.filterMap (fun r => r.customer_type))
  { df with rows := rows.map (fun r =>
      { r with customer_type := r.customer_type.orElse (fun _ => m) }) }

/-- The nine-column grouping key of `grouping` (`B_cleaning.py` lines 62-72):
the tuple of the nine dimension values. -/
structure Key9 where
  release : String
  brand : String
  planned_delivery_yearweek : Int
  creation_yearweek : Int
  customer : String
  customer_sold_to : String
  division : String
  dedalo_area : String
  acquisition_mode_group : String
  deriving DecidableEq

/-- The grouping key of a pre-aggregation row. -/
def groupKey9 (r : CRow) : Key9 :=
  { release := r.release, brand := r.brand,
    planned_delivery_yearweek := r.planned_delivery_yearweek,
    creation_yearweek := r.creation_yearweek, customer := r.customer,
    customer_sold_to := r.customer_sold_to, division := r.division,
    dedalo_area := r.dedalo_area, acquisition_mode_group := r.acquisition_mode_group }

/-- `grouping` (`B_cleaning.py` lines 37-75): group by the nine dimensions
and sum `qty`; the output frame has exactly the nine group columns plus
`qty` (every other column, `customer_type` included, is dropped by
`groupby(...)[['qty']].sum()`).  Pandas emits the groups sorted by key;
group order is immaterial to every property proved below, so the embedding
emits one row per distinct key as produced by `dedup`. -/
def grouping (df : CDF) : GDF :=
  let keys := (df.rows.map groupKey9).dedup
  { rows := keys.filterMap (fun k =>
      match df.rows.find? (fun r => groupKey9 r = k) with
      | none => none
      | some r0 =>
          some { release := r0.release, brand := r0.brand,
                 planned_delivery_yearweek := r0.planned_delivery_yearweek,
                 creation_yearweek := r0.creation_yearweek,
                 customer := r0.customer, customer_sold_to := r0.customer_sold_to,
                 division := r0.division, dedalo_area := r0.dedalo_area,
                 acquisition_mode_group := r0.acquisition_mode_group,
                 qty := ((df.rows.filter (fun r => groupKey9 r = k)).map (fun r => r.qty)).sum })
    cols := ["release", "brand", "planned_delivery_yearweek", "creation_yearweek",
             "customer", "customer_sold_to", "division", "dedalo_area",
             "acquisition_mode_group", "qty"] }

/-- The inner merge `df.merge(df_area, on=['dedalo_area'])` (`B_cleaning.py`
line 109): each left row is paired with every lookup row sharing its
`dedalo_area`; a row with no match is dropped (pandas' default `how='inner'`). -/
def mergeArea (rows : List GRow) (df_area : List AreaRow) : List GRow :=
  rows.flatMap (fun r =>
    (df_area.filter (fun a => a.dedalo_area = r.dedalo_area)).map
      (fun a => { r with launch_type := a.launch_type }))

/-- `cleaning` (`B_cleaning.py` lines 78-113).  The source obtains the lookup
by reading an external Excel file (`import_area_group`); the lookup table is
threaded in as the parameter `df_area`.  The `assert len(df) == lenght_df`
after the merge is the `MergeCardinalityError`. -/
def cleaning (df : CDF) (df_area : List AreaRow) (adding_area : Bool := false) :
    Except CleanError GDF :=
  let g := grouping (replacing_values df)
  if adding_area then
    let merged := mergeArea g.rows df_area
    if merged.length = g.rows.length then
      Except.ok { rows := merged, cols := g.cols ++ ["launch_type"] }
    else Except.error CleanError.MergeCardinalityError
  else Except.ok g

/-! ### Mirror definitions used to state the claims -/

/-- Distinct-release count of the row's comparability group: the group key is
the `'-'`-joined concatenation of `brand`, `customer`, `dedalo_area`,
`new_acquisition_mode` (spec §4.5). -/
def distinctReleases (rows : List Row) (r : Row) : Nat :=
  (((rows.filter (fun s => group_id s = group_id r)).map (fun s => s.release)).dedup).length

/-- Year extracted from the row's release prefix, as `.astype(int)` yields it. -/
def yearOf (r : Row) : Int := (((digitsToNat (year_release r).data).getD 0 : Nat) : Int)

/-- The maximum release-year over all rows (numeric maximum). -/
def maxYearNat (rows : List Row) : Int :=
  rows.foldl (fun m r => max m (yearOf r)) 0

/-- In-group first quartile of `qty` over the row's
(`brand`,`dedalo_area`,`new_acquisition_mode`) peer group, as a rational. -/
def iqrQ1 (rows : List Row) (r : Row) : ℚ := (quantileLinear (peerQty rows r) 1 4).toRat

/-- In-group third quartile of `qty` over the row's peer group, as a rational. -/
def iqrQ3 (rows : List Row) (r : Row) : ℚ := (quantileLinear (peerQty rows r) 3 4).toRat

/-! ### Release-year strings: lexicographic versus numeric order

`create_common_creation_yearweek` takes the lexicographic maximum of the
release-year prefixes and then parses it, while the spec speaks of the
numeric maximum release-year.  For 4-character digit strings the two orders
agree; the lemmas below prove it, culminating in `maxYearStr_parses`. -/

def digitVal (c : Char) : Nat := c.toNat - 48

def valDigits (cs : List Char) : Nat := cs.foldl (fun n c => n * 10 + digitVal c) 0

def isYear4 (s : String) : Prop := s.data.length = 4 ∧ ∀ c ∈ s.data, c.isDigit = true

instance (s : String) : Decidable (isYear4 s) := by
  unfold isYear4
  infer_instance

lemma digitVal_le_nine (c : Char) (h : c.isDigit = true) : digitVal c ≤ 9 := by
  simp [Char.isDigit] at h
  have h1 : 48 ≤ c.toNat := h.1
  have h2 : c.toNat ≤ 57 := h.2
  unfold digitVal
  omega

lemma digit_char_lt (a b : Char) (ha : a.isDigit = true) (hb : b.isDigit = true) :
    a < b ↔ digitVal a < digitVal b := by
  simp [Char.isDigit] at ha hb
  have ha1 : 48 ≤ a.toNat := ha.1
  have hb1 : 48 ≤ b.toNat := hb.1
  have hlt : a < b ↔ a.toNat < b.toNat := by
    rw [Char.lt_def]
    exact Iff.rfl
  unfold digitVal
  rw [hlt]
  omega

lemma digit_char_eq_of_val (a b : Char) (ha : a.isDigit = true) (hb : b.isDigit = true)
    (h : digitVal a = digitVal b) : a = b := by
  simp [Char.isDigit] at ha hb
  have ha1 : 48 ≤ a.toNat := ha.1
  have hb1 : 48 ≤ b.toNat := hb.1
  unfold digitVal at h
  apply Char.ext
  apply UInt32.toNat.inj
  show a.toNat = b.toNat
  omega

lemma valDigits_foldl (cs : List Char) : ∀ n : Nat,
    cs.foldl (fun m c => m * 10 + digitVal c) n = n * 10 ^ cs.length + valDigits cs := by
  induction cs with
  | nil =>
    intro n
    simp [valDigits]
  | cons a t ih =>
    intro n
    have h1 : valDigits (a :: t) = digitVal a * 10 ^ t.length + valDigits t := by
      show t.foldl (fun m c => m * 10 + digitVal c) (0 * 10 + digitVal a)
          = digitVal a * 10 ^ t.length + valDigits t
      rw [ih (0 * 10 + digitVal a)]
      ring
    rw [List.foldl_cons, ih (n * 10 + digitVal a), List.length_cons, h1, pow_succ]
    ring

lemma valDigits_cons (a : Char) (t : List Char) :
    valDigits (a :: t) = digitVal a * 10 ^ t.length + valDigits t := by
  show t.foldl (fun m c => m * 10 + digitVal c) (0 * 10 + digitVal a)
      = digitVal a * 10 ^ t.length + valDigits t
  rw [valDigits_foldl t (0 * 10 + digitVal a)]
  ring

lemma valDigits_lt (cs : List Char) (h : ∀ c ∈ cs, c.isDigit = true) :
    valDigits cs < 10 ^ cs.length := by
  induction cs with
  | nil => simp [valDigits]
  | cons a t ih =>
    rw [valDigits_cons]
    have h9 : digitVal a ≤ 9 := digitVal_le_nine a (h a (by simp))
    have ht : valDigits t < 10 ^ t.length := ih (fun c hc => h c (by simp [hc]))
    simp only [List.length_cons, pow_succ]
    nlinarith

lemma charListLt_iff_val (cs : List Char) :
    ∀ (ds : List Char), cs.length = ds.length →
      (∀ c ∈ cs, c.isDigit = true) → (∀ c ∈ ds, c.isDigit = true) →
      (charListLt cs ds = true ↔ valDigits cs < valDigits ds) := by
  induction cs with
  | nil =>
    intro ds hlen _ _
    have : ds = [] := by
      cases ds with
      | nil => rfl
      | cons b bs => simp at hlen
    subst this
    simp [charListLt, valDigits]
  | cons a t ih =>
    intro ds hlen hc hd
    cases ds with
    | nil => simp at hlen
    | cons b bs =>
      have hlen' : t.length = bs.length := by simpa using hlen
      have hat : a.isDigit = true := hc a (by simp)
      have hbt : b.isDigit = true := hd b (by simp)
      have htd : ∀ c ∈ t, c.isDigit = true := fun c hcm => hc c (by simp [hcm])
      have hbd : ∀ c ∈ bs, c.isDigit = true := fun c hcm => hd c (by simp [hcm])
      have hvt : valDigits t < 10 ^ t.length := valDigits_lt t htd
      have hvb : valDigits bs < 10 ^ bs.length := valDigits_lt bs hbd
      rw [valDigits_cons, valDigits_cons, hlen']
      unfold charListLt
      by_cases hab : a = b
      · subst hab
        rw [if_pos rfl]
        rw [ih bs hlen' htd hbd]
        omega
      · rw [if_neg hab]
        rw [decide_eq_true_eq, digit_char_lt a b hat hbt]
        constructor
        · intro hlt
          have : digitVal a + 1 ≤ digitVal b := hlt
          calc digitVal a * 10 ^ bs.length + valDigits t
              < digitVal a * 10 ^ bs.length + 10 ^ bs.length := by
                rw [← hlen']
                omega
            _ = (digitVal a + 1) * 10 ^ bs.length := by ring
            _ ≤ digitVal b * 10 ^ bs.length := by
                exact Nat.mul_le_mul_right _ this
            _ ≤ digitVal b * 10 ^ bs.length + valDigits bs := by omega
        · intro hv
          by_contra hnot
          have hba : digitVal b ≤ digitVal a := by omega
          rcases Nat.lt_or_ge (digitVal b) (digitVal a) with hlt | hge
          · have : digitVal b + 1 ≤ digitVal a := hlt
            have : digitVal b * 10 ^ bs.length + valDigits bs
                < digitVal a * 10 ^ bs.length + valDigits t := by
              calc digitVal b * 10 ^ bs.length + valDigits bs
                  < digitVal b * 10 ^ bs.length + 10 ^ bs.length := by omega
                _ = (digitVal b + 1) * 10 ^ bs.length := by ring
                _ ≤ digitVal a * 10 ^ bs.length := Nat.mul_le_mul_right _ this
                _ ≤ digitVal a * 10 ^ bs.length + valDigits t := by omega
            omega
          · have heq : digitVal a = digitVal b := by omega
            exact hab (digit_char_eq_of_val a b hat hbt heq)



def parseVal (s : String) : Int := ((digitsToNat s.data).getD 0 : Nat)

lemma parseVal_nonneg (s : String) : 0 ≤ parseVal s := Int.natCast_nonneg _

lemma digitsToNat_some (cs : List Char) (hne : cs ≠ []) (h : ∀ c ∈ cs, c.isDigit = true) :
    digitsToNat cs = some (valDigits cs) := by
  unfold digitsToNat
  rw [if_neg hne]
  have gen : ∀ (l : List Char) (n : Nat), (∀ c ∈ l, c.isDigit = true) →
      l.foldl (fun acc c => match acc with
        | none => none
        | some m => if c.isDigit then some (m * 10 + (c.toNat - 48)) else none) (some n)
      = some (l.foldl (fun m c => m * 10 + digitVal c) n) := by
    intro l
    induction l with
    | nil =>
      intro n _
      rfl
    | cons a t ih =>
      intro n hl
      have ha : a.isDigit = true := hl a (by simp)
      simp only [List.foldl_cons, ha, if_true]
      exact ih _ (fun c hc => hl c (by simp [hc]))
  rw [gen cs 0 h]
  rfl

lemma parseVal_year (s : String) (hy : isYear4 s) : parseVal s = (valDigits s.data : Int) := by
  have hne : s.data ≠ [] := by
    intro h
    have h1 : s.data.length = 4 := hy.1
    rw [h] at h1
    simp at h1
  unfold parseVal
  rw [digitsToNat_some s.data hne hy.2]
  rfl

lemma charListLt_total (cs : List Char) : ∀ ds, cs.length = ds.length → cs ≠ ds →
    charListLt cs ds = true ∨ charListLt ds cs = true := by
  induction cs with
  | nil =>
    intro ds hlen hne
    cases ds with
    | nil => exact absurd rfl hne
    | cons b bs => simp at hlen
  | cons a t ih =>
    intro ds hlen hne
    cases ds with
    | nil => simp at hlen
    | cons b bs =>
      by_cases hab : a = b
      · subst hab
        have hne' : t ≠ bs := fun h => hne (by rw [h])
        have hlen' : t.length = bs.length := by simpa using hlen
        unfold charListLt
        rw [if_pos rfl, if_pos rfl]
        exact ih bs hlen' hne'
      · unfold charListLt
        rw [if_neg hab, if_neg (Ne.symm hab)]
        rcases lt_trichotomy a b with h | h | h
        · exact Or.inl (decide_eq_true h)
        · exact absurd h hab
        · exact Or.inr (decide_eq_true h)

lemma strLe_iff_year (s t : String) (hs : isYear4 s) (ht : isYear4 t) :
    strLe s t = true ↔ valDigits s.data ≤ valDigits t.data := by
  unfold strLe
  by_cases heq : s = t
  · subst heq
    simp
  · rw [if_neg heq]
    have hlen : s.data.length = t.data.length := by rw [hs.1, ht.1]
    have hdne : s.data ≠ t.data := by
      intro hd
      exact heq (String.ext hd)
    rw [show strLt s t = charListLt s.data t.data from rfl,
      charListLt_iff_val s.data t.data hlen hs.2 ht.2]
    constructor
    · omega
    · intro hle
      rcases Nat.lt_or_ge (valDigits s.data) (valDigits t.data) with h | h
      · exact h
      · exfalso
        have hveq : valDigits s.data = valDigits t.data := le_antisymm hle h
        rcases charListLt_total s.data t.data hlen hdne with hl | hl
        · have := (charListLt_iff_val s.data t.data hlen hs.2 ht.2).mp hl
          omega
        · have := (charListLt_iff_val t.data s.data hlen.symm ht.2 hs.2).mp hl
          omega

lemma strLe_empty (s : String) (h : s.data ≠ []) : strLe "" s = true := by
  unfold strLe
  have hne : "" ≠ s := by
    intro he
    apply h
    rw [← he]
  rw [if_neg hne]
  show charListLt [] s.data = true
  cases hs : s.data with
  | nil => exact absurd hs h
  | cons c cs => rfl

lemma fold_year_max (l : List Row) : ∀ (m : String), (isYear4 m ∨ m = "") →
    (∀ r ∈ l, isYear4 (year_release r)) →
    parseVal (l.foldl (fun m r => if strLe m (year_release r) then year_release r else m) m)
      = l.foldl (fun v r => max v (parseVal (year_release r))) (parseVal m) := by
  induction l with
  | nil =>
    intro m _ _
    rfl
  | cons r t ih =>
    intro m hm h4
    have hyr : isYear4 (year_release r) := h4 r (by simp)
    have hyrne : (year_release r).data ≠ [] := by
      intro hd
      have h1 : (year_release r).data.length = 4 := hyr.1
      rw [hd] at h1
      simp at h1
    simp only [List.foldl_cons]
    have hstep : parseVal (if strLe m (year_release r) then year_release r else m)
          = max (parseVal m) (parseVal (year_release r))
        ∧ isYear4 (if strLe m (year_release r) then year_release r else m) := by
      rcases hm with hy4 | hemp
      · by_cases hle : strLe m (year_release r) = true
        · rw [if_pos hle]
          have hv := (strLe_iff_year m _ hy4 hyr).mp hle
          refine ⟨?_, hyr⟩
          rw [parseVal_year m hy4, parseVal_year _ hyr,
            max_eq_right (by exact_mod_cast hv)]
        · rw [if_neg hle]
          have hv : ¬ valDigits m.data ≤ valDigits (year_release r).data :=
            fun hc => hle ((strLe_iff_year m _ hy4 hyr).mpr hc)
          refine ⟨?_, hy4⟩
          rw [parseVal_year m hy4, parseVal_year _ hyr,
            max_eq_left (by exact_mod_cast le_of_not_le hv)]
      · subst hemp
        rw [if_pos (strLe_empty _ hyrne)]
        refine ⟨?_, hyr⟩
        have h0 : parseVal "" = 0 := rfl
        rw [h0, max_eq_right (parseVal_nonneg _)]
    rw [ih _ (Or.inl hstep.2) (fun x hx => h4 x (by simp [hx])), hstep.1]

lemma maxYearStr_parses (rows : List Row)
    (h4 : ∀ r ∈ rows, isYear4 (year_release r)) :
    (((digitsToNat (maxYearStr rows).data).getD 0 : Nat) : Int) = maxYearNat rows := by
  show parseVal (maxYearStr rows) = maxYearNat rows
  unfold maxYearStr maxYearNat
  rw [fold_year_max rows "" (Or.inr rfl) h4]
  rfl

/-! ### Concrete tables used by the examples and witnesses -/

/-- A shaping row with every derived field defaulted; only the fields the
respective example varies are given non-constant values. -/
def mkRow (rel br cu ar nam : String) (cw qty : Int) : Row :=
  { release := rel, brand := br, customer := cu, customer_sold_to := "SOLDTO",
    division := "OPTICAL", dedalo_area := ar, acquisition_mode_group := "REP",
    creation_yearweek := cw, planned_delivery_yearweek := cw, qty := qty,
    new_acquisition_mode := nam }

/-- The first-order example group of the spec: three rows of one
(`release`,`brand`,`customer`,`dedalo_area`) group with `creation_yearweek`
202001, 202002, 202005. -/
def exFirstOrder : DF :=
  { rows := [mkRow "2020A" "B1" "C1" "A1" "" 202001 5,
             mkRow "2020A" "B1" "C1" "A1" "" 202002 5,
             mkRow "2020A" "B1" "C1" "A1" "" 202005 5] }

/-- The IQR example group of the spec: one peer group with
`qty` = [10, 12, 11, 13, 9, 100]. -/
def exOutlier : DF :=
  { rows := [mkRow "2020A" "B1" "C1" "A1" "M" 202001 10,
             mkRow "2020A" "B1" "C2" "A1" "M" 202001 12,
             mkRow "2020A" "B1" "C3" "A1" "M" 202001 11,
             mkRow "2020A" "B1" "C4" "A1" "M" 202001 13,
             mkRow "2020A" "B1" "C5" "A1" "M" 202001 9,
             mkRow "2020A" "B1" "C6" "A1" "M" 202001 100],
    has_new_acquisition_mode := true }

/-- A two-release table: the `(B1,C1,A1,M)` group occurs in releases `2020A`
and `2021A` (comparable); the `(B2,C1,A1,M)` group occurs only in `2020A`. -/
def exComp : DF :=
  { rows := [mkRow "2020A" "B1" "C1" "A1" "M" 202001 5,
             mkRow "2021A" "B1" "C1" "A1" "M" 202101 7,
             mkRow "2020A" "B2" "C1" "A1" "M" 202001 5],
    has_new_acquisition_mode := true }

/-- First row of the key-collision pair: dimension values containing `'-'`. -/
def exColA : Row := mkRow "R1" "a-b" "c" "d" "e" 202001 5

/-- Second row of the key-collision pair: a different dimension tuple whose
`'-'`-joined concatenation coincides with that of `exColA`. -/
def exColB : Row := mkRow "R2" "a" "b-c" "d" "e" 202001 5

/-- The two-row collision table: distinct dimension tuples, one concatenated
group key, two distinct releases. -/
def exCollision : DF :=
  { rows := [exColA, exColB], has_new_acquisition_mode := true }

/-- A cleaner input table: two pre-aggregation rows of one dimension group
(one with missing `customer_type`) plus one row of a second group. -/
def exCleanRow (cu : String) (ct : Option String) (q : Int) : CRow :=
  { release := "2020A", brand := "B1", planned_delivery_yearweek := 202010,
    creation_yearweek := 202001, customer := cu, customer_sold_to := "S",
    division := "OPTICAL", dedalo_area := "AREA1", acquisition_mode_group := "REP",
    customer_type := ct, qty := q }

/-- Concrete cleaner input with a missing `customer_type` value and the raw
`"BPF"` code. -/
def exClean : CDF :=
  { rows := [exCleanRow "C1" (some "BPF") 3, exCleanRow "C1" none 4,
             exCleanRow "C2" (some "P") 5],
    cols := expected_cols }

/-! ## Theorems -/

/-- C3: the schema check of `import_one_file` is swallowed.  For the `.csv`
file whose single parsed column is `"Wrong col"` the renamed column set does
not match the expected canonical set (`schema_matches` is `false`), yet
`import_one_file` returns the table successfully instead of failing with a
`SchemaMismatch` error: the source computes the comparison inside a
`try`/`except` whose body cannot raise and discards the result. -/
theorem schema_mismatch_swallowed :
    schema_matches ["Wrong col"] = false
    ∧ import_one_file { suffix := ".csv", cols := ["Wrong col"] }
        = Except.ok ["Wrong col"] := by
  constructor
  · decide
  · rfl

/-- C6 (counterexample): for the output name `"df_comp.txt"`, whose extension
`"txt"` is not one of the three supported formats, `save` returns `none` —
it falls through every branch and writes nothing, raising no error — so the
claim that `save` fails with `UnsupportedFormat` on every unrecognized
extension is false. -/
theorem save_txt_silently_no_write :
    save "df_comp.txt" = none
    ∧ String.mk ((splitDot "df_comp.txt".data []).getLastD []) = "txt" := by
  constructor
  · rfl
  · rfl

/-- C6 (amended): `import_one_file` fails with `UnsupportedFormat` for every
path whose extension is not `.xlsx`, `.csv` or `.parquet`, while `save`
silently returns without writing (and without raising) for every output name
whose final `'.'`-separated component is not `xlsx`, `parquet` or `csv`. -/
theorem unsupported_extension_behaviour :
    (∀ f : RawFile,
        ¬ (f.suffix = ".xlsx" ∨ f.suffix = ".csv" ∨ f.suffix = ".parquet") →
        import_one_file f = Except.error ImportError.UnsupportedFormat)
    ∧ (∀ name : String,
        String.mk ((splitDot name.data []).getLastD []) ≠ "xlsx"
          → String.mk ((splitDot name.data []).getLastD []) ≠ "parquet"
          → String.mk ((splitDot name.data []).getLastD []) ≠ "csv"
          → save name = none) := by
  constructor
  · intro f h
    simp only [import_one_file, if_neg h]
  · intro name h1 h2 h3
    simp only [save, if_neg h1, if_neg h2, if_neg h3]

/-- C6 (witness for the amended theorem): at the concrete inputs, the
unsupported `.txt` import fails and the unsupported `.txt` save writes
nothing. -/
theorem unsupported_extension_behaviour_witness :
    import_one_file { suffix := ".txt", cols := [] }
        = Except.error ImportError.UnsupportedFormat
    ∧ save "df_comp.txt" = none :=
  ⟨unsupported_extension_behaviour.1 { suffix := ".txt", cols := [] } (by decide),
   unsupported_extension_behaviour.2 "df_comp.txt" (by decide) (by decide) (by decide)⟩

/-- C10: the comparability group key is the plain `'-'`-joined concatenation
of the dimension values, so two rows with distinct
(`brand`,`customer`,`dedalo_area`,`new_acquisition_mode`) tuples whose values
contain `'-'` can share one key: `("a-b","c","d","e")` and `("a","b-c","d","e")`
both concatenate to `"a-b-c-d-e"`, and in the two-row table holding them (one
row per release) `create_comp` marks both rows `'Y'` — they are treated as a
single comparability group even though each tuple-group contains only one
release. -/
theorem concat_key_collision :
    (exColA.brand, exColA.customer, exColA.dedalo_area, exColA.new_acquisition_mode)
      ≠ (exColB.brand, exColB.customer, exColB.dedalo_area, exColB.new_acquisition_mode)
    ∧ group_id exColA = group_id exColB
    ∧ exColA.release ≠ exColB.release
    ∧ (create_comp exCollision).rows.map (fun r => r.comp) = ["Y", "Y"] := by
  refine ⟨by decide, by decide, by decide, by decide⟩

/-- C1: `create_comp` marks a row `'Y'` iff the number of distinct `release`
values among the rows sharing its comparability group key — the `'-'`-joined
concatenation of `brand`, `customer`, `dedalo_area`, `new_acquisition_mode`,
which is how the spec (§4.5) defines the group key — equals exactly 2, and
`'N'` otherwise, so a group with 1 or with 3 or more distinct releases is
always `'N'`. -/
theorem create_comp_two_release_groups (df : DF) :
    (create_comp df).rows.map (fun r => r.comp)
      = df.rows.map (fun r => if distinctReleases df.rows r = 2 then "Y" else "N") := by
  unfold create_comp
  simp only [List.map_map]
  refine List.map_congr_left ?_
  intro r hr
  simp only [Function.comp_apply]
  have hmem : group_id r ∈ (df.rows.map group_id).dedup :=
    List.mem_dedup.mpr (List.mem_map_of_mem group_id hr)
  have hiff : group_id r ∈ ((df.rows.map group_id).dedup).filter
      (fun k => nuniqueRelease df.rows group_id k = 2)
      ↔ distinctReleases df.rows r = 2 := by
    rw [List.mem_filter]
    simp only [hmem, true_and, decide_eq_true_eq]
    exact Iff.rfl
  by_cases h : distinctReleases df.rows r = 2
  · rw [if_pos (hiff.mpr h), if_pos h]
  · rw [if_neg (fun hc => h (hiff.mp hc)), if_neg h]

/-- C4: `label_first_order` sets `first_order` exactly when the row's
`creation_yearweek`, converted to a calendar date by the `%Y%W%w` convention,
is strictly within `week_inside_first` weeks (`7·W` days) of the minimum
such date over the row's (`release`,`brand`,`customer`,`dedalo_area`) group;
and on the spec's example group with `creation_yearweek` =
[202001, 202002, 202005] and `week_inside_first` = 2 the flags are
[true, true, false]. -/
theorem label_first_order_window (df : DF) (W : Int) :
    ((label_first_order df W).rows.map (fun r => r.first_order)
      = df.rows.map (fun r =>
          decide ((yearweekToDay r.creation_yearweek.toNat : Int)
            - (groupMinDay df.rows r : Int) < 7 * W)))
    ∧ (label_first_order exFirstOrder 2).rows.map (fun r => r.first_order)
        = [true, true, false] := by
  constructor
  · unfold label_first_order
    simp only [List.map_map]
    rfl
  · decide

/-! ### Fraction-to-rational bridge lemmas -/

/-- `Frac.le` agrees with `≤` on the denoted rationals when both
denominators are positive. -/
lemma Frac.le_iff_toRat (a b : Frac) (ha : 0 < a.den) (hb : 0 < b.den) :
    Frac.le a b = true ↔ a.toRat ≤ b.toRat := by
  have ha' : (0 : ℚ) < (a.den : ℚ) := by exact_mod_cast ha
  have hb' : (0 : ℚ) < (b.den : ℚ) := by exact_mod_cast hb
  unfold Frac.le Frac.toRat
  rw [decide_eq_true_eq, div_le_div_iff₀ ha' hb']
  exact_mod_cast Iff.rfl

/-- `Frac.add` denotes rational addition (nonzero denominators). -/
lemma Frac.toRat_add (a b : Frac) (ha : a.den ≠ 0) (hb : b.den ≠ 0) :
    (Frac.add a b).toRat = a.toRat + b.toRat := by
  have ha' : (a.den : ℚ) ≠ 0 := by exact_mod_cast ha
  have hb' : (b.den : ℚ) ≠ 0 := by exact_mod_cast hb
  unfold Frac.add Frac.toRat
  push_cast
  field_simp

/-- `Frac.sub` denotes rational subtraction (nonzero denominators). -/
lemma Frac.toRat_sub (a b : Frac) (ha : a.den ≠ 0) (hb : b.den ≠ 0) :
    (Frac.sub a b).toRat = a.toRat - b.toRat := by
  have ha' : (a.den : ℚ) ≠ 0 := by exact_mod_cast ha
  have hb' : (b.den : ℚ) ≠ 0 := by exact_mod_cast hb
  unfold Frac.sub Frac.toRat
  push_cast
  field_simp
  ring

/-- `Frac.mul` denotes rational multiplication. -/
lemma Frac.toRat_mul (a b : Frac) :
    (Frac.mul a b).toRat = a.toRat * b.toRat := by
  unfold Frac.mul Frac.toRat
  push_cast
  rw [div_mul_div_comm]

/-- `Frac.fmax` denotes the rational maximum (positive denominators). -/
lemma Frac.toRat_fmax (a b : Frac) (ha : 0 < a.den) (hb : 0 < b.den) :
    (Frac.fmax a b).toRat = max a.toRat b.toRat := by
  unfold Frac.fmax
  by_cases h : Frac.le a b = true
  · rw [if_pos h, max_eq_right ((Frac.le_iff_toRat a b ha hb).mp h)]
  · rw [if_neg h]
    have : ¬ a.toRat ≤ b.toRat := fun hc => h ((Frac.le_iff_toRat a b ha hb).mpr hc)
    rw [max_eq_left (le_of_not_le this)]

/-- An integer embeds to its rational value. -/
lemma Frac.toRat_ofInt (n : Int) : (Frac.ofInt n).toRat = (n : ℚ) := by
  unfold Frac.ofInt Frac.toRat
  norm_num

/-- The outlier flag the `'iqr'` method computes for value `q` against
quartile fractions with denominator 4 equals the rational-arithmetic
characterization `¬ (max 2 (Q1 - 1.5·IQR) ≤ q ∧ q ≤ Q3 + 1.5·IQR)`. -/
lemma iqr_flag_eq_gen (q1f q3f : Frac) (q : Int)
    (h1 : q1f.den = 4) (h3 : q3f.den = 4) :
    (if Frac.le
          (Frac.fmax (Frac.ofInt 2)
            (Frac.sub q1f (Frac.mul ⟨3, 2⟩ (Frac.sub q3f q1f))))
          (Frac.ofInt q)
        && Frac.le (Frac.ofInt q)
          (Frac.add q3f (Frac.mul ⟨3, 2⟩ (Frac.sub q3f q1f)))
     then false else true)
    = decide (¬ (max 2 (q1f.toRat - 3 / 2 * (q3f.toRat - q1f.toRat)) ≤ (q : ℚ)
        ∧ (q : ℚ) ≤ q3f.toRat + 3 / 2 * (q3f.toRat - q1f.toRat))) := by
  have hone : (0 : Int) < (Frac.ofInt q).den := by
    show (0 : Int) < 1
    decide
  have hiqr : (Frac.sub q3f q1f).den = 16 := by
    show q3f.den * q1f.den = 16
    rw [h1, h3]
    decide
  have hm : (Frac.mul ⟨3, 2⟩ (Frac.sub q3f q1f)).den = 32 := by
    show (2 : Int) * (Frac.sub q3f q1f).den = 32
    rw [hiqr]
    decide
  have hlow : (Frac.sub q1f (Frac.mul ⟨3, 2⟩ (Frac.sub q3f q1f))).den = 128 := by
    show q1f.den * (Frac.mul ⟨3, 2⟩ (Frac.sub q3f q1f)).den = 128
    rw [h1, hm]
    decide
  have hup : (Frac.add q3f (Frac.mul ⟨3, 2⟩ (Frac.sub q3f q1f))).den = 128 := by
    show q3f.den * (Frac.mul ⟨3, 2⟩ (Frac.sub q3f q1f)).den = 128
    rw [h3, hm]
    decide
  have hfmax : (0 : Int) < (Frac.fmax (Frac.ofInt 2)
      (Frac.sub q1f (Frac.mul ⟨3, 2⟩ (Frac.sub q3f q1f)))).den := by
    rw [Frac.fmax]
    split
    · rw [hlow]; decide
    · decide
  have hL := Frac.le_iff_toRat
    (Frac.fmax (Frac.ofInt 2) (Frac.sub q1f (Frac.mul ⟨3, 2⟩ (Frac.sub q3f q1f))))
    (Frac.ofInt q) hfmax hone
  have hU := Frac.le_iff_toRat (Frac.ofInt q)
    (Frac.add q3f (Frac.mul ⟨3, 2⟩ (Frac.sub q3f q1f))) hone (by rw [hup]; decide)
  have e32 : (Frac.mul ⟨3, 2⟩ (Frac.sub q3f q1f)).toRat = 3 / 2 * (q3f.toRat - q1f.toRat) := by
    rw [Frac.toRat_mul, Frac.toRat_sub q3f q1f (by rw [h3]; decide) (by rw [h1]; decide)]
    norm_num [Frac.toRat]
  have elow : (Frac.fmax (Frac.ofInt 2)
        (Frac.sub q1f (Frac.mul ⟨3, 2⟩ (Frac.sub q3f q1f)))).toRat
      = max 2 (q1f.toRat - 3 / 2 * (q3f.toRat - q1f.toRat)) := by
    rw [Frac.toRat_fmax _ _ (by decide) (by rw [hlow]; decide),
      Frac.toRat_sub q1f _ (by rw [h1]; decide) (by rw [hm]; decide), e32, Frac.toRat_ofInt]
    norm_num
  have eup : (Frac.add q3f (Frac.mul ⟨3, 2⟩ (Frac.sub q3f q1f))).toRat
      = q3f.toRat + 3 / 2 * (q3f.toRat - q1f.toRat) := by
    rw [Frac.toRat_add q3f _ (by rw [h3]; decide) (by rw [hm]; decide), e32]
  rw [elow, Frac.toRat_ofInt] at hL
  rw [eup, Frac.toRat_ofInt] at hU
  by_cases hA : max 2 (q1f.toRat - 3 / 2 * (q3f.toRat - q1f.toRat)) ≤ (q : ℚ)
  · by_cases hB : (q : ℚ) ≤ q3f.toRat + 3 / 2 * (q3f.toRat - q1f.toRat)
    · rw [hL.mpr hA, hU.mpr hB]
      simp [hA, hB]
    · have hfalse : Frac.le (Frac.ofInt q)
          (Frac.add q3f (Frac.mul ⟨3, 2⟩ (Frac.sub q3f q1f))) = false := by
        cases hE : Frac.le (Frac.ofInt q)
            (Frac.add q3f (Frac.mul ⟨3, 2⟩ (Frac.sub q3f q1f))) with
        | false => rfl
        | true => exact absurd (hU.mp hE) hB
      rw [hfalse]
      simp [hB]
  · have hfalse : Frac.le (Frac.fmax (Frac.ofInt 2)
        (Frac.sub q1f (Frac.mul ⟨3, 2⟩ (Frac.sub q3f q1f)))) (Frac.ofInt q) = false := by
      cases hE : Frac.le (Frac.fmax (Frac.ofInt 2)
          (Frac.sub q1f (Frac.mul ⟨3, 2⟩ (Frac.sub q3f q1f)))) (Frac.ofInt q) with
      | false => rfl
      | true => exact absurd (hL.mp hE) hA
    rw [hfalse]
    simp [hA]

/-- C9: with method `'iqr'`, `detect_outlier` flags a row exactly when its
`qty` lies outside `[max(2, Q1 - 1.5·IQR), Q3 + 1.5·IQR]`, `Q1`/`Q3` being
the in-group quartiles of `qty` over the row's
(`brand`,`dedalo_area`,`new_acquisition_mode`) peer group and
`IQR = Q3 - Q1`; and on the spec's example peer group with
`qty` = [10, 12, 11, 13, 9, 100] only the row with `qty` 100 is flagged. -/
theorem detect_outlier_iqr_bounds (df : DF) :
    ((detect_outlier df "iqr").rows.map (fun r => r.outlier)
      = df.rows.map (fun r =>
          decide (¬ (max 2 (iqrQ1 df.rows r - 3 / 2 * (iqrQ3 df.rows r - iqrQ1 df.rows r))
              ≤ (r.qty : ℚ)
            ∧ (r.qty : ℚ) ≤ iqrQ3 df.rows r
              + 3 / 2 * (iqrQ3 df.rows r - iqrQ1 df.rows r)))))
    ∧ (detect_outlier exOutlier "iqr").rows.map (fun r => r.outlier)
        = [false, false, false, false, false, true] := by
  constructor
  · unfold detect_outlier
    rw [if_pos rfl]
    simp only [List.map_map]
    refine List.map_congr_left ?_
    intro r _
    simp only [Function.comp_apply]
    exact iqr_flag_eq_gen (quantileLinear (peerQty df.rows r) 1 4)
      (quantileLinear (peerQty df.rows r) 3 4) r.qty rfl rfl
  · decide

/-- When the `common_creation_yearweek` column is already present,
`create_common_creation_yearweek` returns the table unchanged. -/
lemma create_common_of_has (df : DF) (h : df.has_common = true) :
    create_common_creation_yearweek df = df := by
  unfold create_common_creation_yearweek
  rw [if_pos h]

/-- After a run on a table lacking the column, the column is present. -/
lemma create_common_sets_flag (df : DF) (hnc : df.has_common = false) :
    (create_common_creation_yearweek df).has_common = true := by
  unfold create_common_creation_yearweek
  rw [if_neg (by simp [hnc])]

/-- C5: on a table without the `common_creation_yearweek` column and whose
release identifiers start with 4-digit year numerals (the spec's data model),
`create_common_creation_yearweek` sets
`common_creation_yearweek = creation_yearweek + (max_year - year(release))·100`
and likewise for the planned-delivery week, where `max_year` is the maximum
release-year over all rows; applied again to the resulting table the function
returns it unchanged. -/
theorem create_common_formula_idempotent (df : DF)
    (hnc : df.has_common = false) (_hne : df.rows ≠ [])
    (hyears : ∀ r ∈ df.rows, isYear4 (year_release r)) :
    ((create_common_creation_yearweek df).rows.map (fun r => r.common_creation_yearweek)
        = df.rows.map (fun r =>
            r.creation_yearweek + (maxYearNat df.rows - yearOf r) * 100))
    ∧ ((create_common_creation_yearweek df).rows.map
          (fun r => r.common_planned_delivery_yearweek)
        = df.rows.map (fun r =>
            r.planned_delivery_yearweek + (maxYearNat df.rows - yearOf r) * 100))
    ∧ create_common_creation_yearweek (create_common_creation_yearweek df)
        = create_common_creation_yearweek df := by
  have hmax : (((digitsToNat (maxYearStr df.rows).data).getD 0 : Nat) : Int)
      = maxYearNat df.rows := maxYearStr_parses df.rows hyears
  refine ⟨?_, ?_, create_common_of_has _ (create_common_sets_flag df hnc)⟩
  · unfold create_common_creation_yearweek
    rw [if_neg (by simp [hnc])]
    simp only [List.map_map]
    refine List.map_congr_left ?_
    intro r _
    simp only [Function.comp_apply]
    rw [← hmax]
    rfl
  · unfold create_common_creation_yearweek
    rw [if_neg (by simp [hnc])]
    simp only [List.map_map]
    refine List.map_congr_left ?_
    intro r _
    simp only [Function.comp_apply]
    rw [← hmax]
    rfl

/-- C5 (witness): the hypotheses and conclusion hold on the concrete
two-release table `exComp` (release years 2020 and 2021). -/
theorem create_common_formula_idempotent_witness :
    ((create_common_creation_yearweek exComp).rows.map (fun r => r.common_creation_yearweek)
        = exComp.rows.map (fun r =>
            r.creation_yearweek + (maxYearNat exComp.rows - yearOf r) * 100))
    ∧ ((create_common_creation_yearweek exComp).rows.map
          (fun r => r.common_planned_delivery_yearweek)
        = exComp.rows.map (fun r =>
            r.planned_delivery_yearweek + (maxYearNat exComp.rows - yearOf r) * 100))
    ∧ create_common_creation_yearweek (create_common_creation_yearweek exComp)
        = create_common_creation_yearweek exComp :=
  create_common_formula_idempotent exComp rfl (by decide) (by decide)

/-- A flag column written as `if c then 'Y' else 'N'` takes only the values
`'Y'` and `'N'`. -/
lemma ite_yn (c : Prop) [Decidable c] :
    (if c then "Y" else "N") = "Y" ∨ (if c then "Y" else "N") = "N" := by
  split
  · exact Or.inl rfl
  · exact Or.inr rfl

/-- A flag column written as `if c then 'Y' else 'N'` equals `'Y'` only when
the condition held. -/
lemma ite_yn_imp (c : Prop) [Decidable c] (P : Prop) (h : c → P) :
    (if c then "Y" else "N") = "Y" → P := by
  split
  · intro _
    exact h (by assumption)
  · intro hc
    exact absurd hc (by decide)

/-- C2: after the shaping flags are computed — `label_first_order` followed
by `create_comp_today_no_outliers`, which lazily computes `comp`,
`till_today`, `comp_today`, `outlier` and `comp_no_out` on a table that does
not yet have them — every row satisfies: the four comparability flags take
only the values `'Y'`/`'N'`; `comp_today = 'Y'` implies `comp = 'Y'` and
`till_today = 'Y'`; and `comp_today_no_out = 'Y'` implies `outlier = false`
and `comp_today = 'Y'`. -/
theorem shaping_flag_invariants (df : DF) (todayYW W : Int)
    (h0 : df.has_common = false) (h1 : df.has_comp = false)
    (h2 : df.has_till_today = false) (h3 : df.has_comp_today = false)
    (h4 : df.has_outlier = false) (h5 : df.has_comp_no_out = false) :
    ∀ r ∈ (create_comp_today_no_outliers (label_first_order df W) todayYW "iqr").rows,
      (r.comp = "Y" ∨ r.comp = "N")
      ∧ (r.comp_today = "Y" ∨ r.comp_today = "N")
      ∧ (r.comp_no_out = "Y" ∨ r.comp_no_out = "N")
      ∧ (r.comp_today_no_out = "Y" ∨ r.comp_today_no_out = "N")
      ∧ (r.comp_today = "Y" → r.comp = "Y" ∧ r.till_today = "Y")
      ∧ (r.comp_today_no_out = "Y" → r.outlier = false ∧ r.comp_today = "Y") := by
  simp only [create_comp_today_no_outliers, create_comp_today, create_comp,
    create_till_today, create_common_creation_yearweek, create_comp_no_outliers,
    detect_outlier, label_first_order, h0, h1, h2, h3, h4, h5,
    List.map_map, ne_eq, not_true_eq_false, not_false_eq_true, or_false, false_or,
    if_true, if_false, ite_true, ite_false, reduceCtorEq, eq_self_iff_true, not_true,
    or_self, reduceIte]
  intro r hr
  rw [List.mem_map] at hr
  obtain ⟨s, hs, rfl⟩ := hr
  refine ⟨ite_yn _, ite_yn _, ite_yn _, ite_yn _,
    ite_yn_imp _ _ (fun h => ⟨h.2.1, h.1⟩), ite_yn_imp _ _ (fun h => ⟨h.1, h.2.1⟩)⟩

/-- The fully shaped concrete table used by the C2 witness. -/
def exShaped : DF :=
  create_comp_today_no_outliers (label_first_order exComp 2) 202452 "iqr"

/-- The first row of the shaped concrete table. -/
def exShapedRow : Row := exShaped.rows.getD 0 (mkRow "" "" "" "" "" 0 0)

/-- C2 (witness): the invariants hold at the first row of the shaped
concrete two-release table. -/
theorem shaping_flag_invariants_witness :
    (exShapedRow.comp = "Y" ∨ exShapedRow.comp = "N")
    ∧ (exShapedRow.comp_today = "Y" ∨ exShapedRow.comp_today = "N")
    ∧ (exShapedRow.comp_no_out = "Y" ∨ exShapedRow.comp_no_out = "N")
    ∧ (exShapedRow.comp_today_no_out = "Y" ∨ exShapedRow.comp_today_no_out = "N")
    ∧ (exShapedRow.comp_today = "Y" → exShapedRow.comp = "Y" ∧ exShapedRow.till_today = "Y")
    ∧ (exShapedRow.comp_today_no_out = "Y" →
        exShapedRow.outlier = false ∧ exShapedRow.comp_today = "Y") :=
  shaping_flag_invariants exComp 202452 2 rfl rfl rfl rfl rfl rfl exShapedRow (by decide)

/-- C7 (counterexample): the concrete table `exClean` has rows whose
`dedalo_area` (`"AREA1"`) does not occur in the empty lookup — a lookup with
at most one row per area — and `cleaning` with the area option enabled fails
with `MergeCardinalityError` instead of keeping every input row: the merge is
an inner join (pandas default `how='inner'`), not a left join, so the
unmatched rows are dropped and the row count shrinks. -/
theorem cleaning_inner_join_cex :
    cleaning exClean [] true = Except.error CleanError.MergeCardinalityError := by
  rfl

/-- C7 (amended): `cleaning` with the area option inner-joins the lookup on
`dedalo_area` (each grouped row is kept once per matching lookup row; rows
with no match are dropped) and fails with `MergeCardinalityError` exactly
when this join changes the row count; hence when the lookup has exactly one
row for each `dedalo_area` occurring in the grouped table, `cleaning`
succeeds and the row count equals the pre-join row count. -/
theorem cleaning_area_merge (df : CDF) (df_area : List AreaRow) :
    (cleaning df df_area true = Except.error CleanError.MergeCardinalityError
      ↔ (mergeArea (grouping (replacing_values df)).rows df_area).length
          ≠ (grouping (replacing_values df)).rows.length)
    ∧ ((∀ r ∈ (grouping (replacing_values df)).rows,
          (df_area.filter (fun a => a.dedalo_area = r.dedalo_area)).length = 1) →
        cleaning df df_area true
          = Except.ok
              { rows := mergeArea (grouping (replacing_values df)).rows df_area,
                cols := (grouping (replacing_values df)).cols ++ ["launch_type"] }
          ∧ (mergeArea (grouping (replacing_values df)).rows df_area).length
              = (grouping (replacing_values df)).rows.length) := by
  constructor
  · unfold cleaning
    by_cases h : (mergeArea (grouping (replacing_values df)).rows df_area).length
        = (grouping (replacing_values df)).rows.length
    · simp [h]
    · simp [h]
  · intro h
    have hgen : ∀ (rows : List GRow),
        (∀ r ∈ rows, (df_area.filter (fun a => a.dedalo_area = r.dedalo_area)).length = 1) →
        (mergeArea rows df_area).length = rows.length := by
      intro rows
      induction rows with
      | nil => intro _; rfl
      | cons a t ih =>
        intro hall
        unfold mergeArea at ih ⊢
        simp only [List.flatMap_cons, List.length_append, List.length_map]
        rw [hall a (by simp), ih (fun r hr => hall r (by simp [hr]))]
        simp [Nat.add_comm]
    have hlen : (mergeArea (grouping (replacing_values df)).rows df_area).length
        = (grouping (replacing_values df)).rows.length :=
      hgen (grouping (replacing_values df)).rows h
    refine ⟨?_, hlen⟩
    unfold cleaning
    rw [if_pos rfl, if_pos hlen]

/-- C7 (witness for the amended theorem): with the one-row lookup covering
`"AREA1"`, `cleaning` succeeds on the concrete table and preserves the
grouped row count. -/
theorem cleaning_area_merge_witness :
    cleaning exClean [{ dedalo_area := "AREA1", launch_type := "EUROPE" }] true
      = Except.ok
          { rows := mergeArea (grouping (replacing_values exClean)).rows
              [{ dedalo_area := "AREA1", launch_type := "EUROPE" }],
            cols := (grouping (replacing_values exClean)).cols ++ ["launch_type"] }
    ∧ (mergeArea (grouping (replacing_values exClean)).rows
        [{ dedalo_area := "AREA1", launch_type := "EUROPE" }]).length
      = (grouping (replacing_values exClean)).rows.length :=
  (cleaning_area_merge exClean
      [{ dedalo_area := "AREA1", launch_type := "EUROPE" }]).2 (by decide)

/-- The mode-selection fold keeps a `some` accumulator `some`. -/
lemma seriesMode_foldl_isSome (xs : List String) :
    ∀ (l : List String) (b : String),
      (l.foldl
        (fun best c =>
          match best with
          | none => some c
          | some b' =>
              if xs.count c > xs.count b'
                  ∨ (xs.count c = xs.count b' ∧ strLt c b' = true) then some c
              else some b')
        (some b)).isSome := by
  intro l
  induction l with
  | nil => intro b; rfl
  | cons a t ih =>
    intro b
    simp only [List.foldl_cons]
    split
    · exact ih a
    · exact ih b

/-- `Series.mode().iloc[0]` exists whenever the value list is nonempty. -/
lemma seriesMode_isSome (xs : List String) (h : xs ≠ []) : (seriesMode xs).isSome := by
  unfold seriesMode
  have hd : xs.dedup ≠ [] := by
    simpa [List.dedup_eq_nil] using h
  obtain ⟨c, cs, hcs⟩ := List.exists_cons_of_ne_nil hd
  rw [hcs]
  simp only [List.foldl_cons]
  exact seriesMode_foldl_isSome xs cs c

/-- After `replacing_values` no `customer_type` is missing, provided some
value was present (otherwise the Python `mode().iloc[0]` raises). -/
lemma replacing_values_fills (df : CDF) (h : ∃ r ∈ df.rows, r.customer_type ≠ none) :
    ∀ r ∈ (replacing_values df).rows, r.customer_type ≠ none := by
  unfold replacing_values
  intro r hr
  simp only [List.mem_map] at hr
  obtain ⟨s, hs, rfl⟩ := hr
  obtain ⟨s0, hs0, rfl⟩ := hs
  cases hct : s0.customer_type with
  | some v =>
    simp [Option.orElse, hct]
  | none =>
    have hmem : ∃ v, v ∈ (df.rows.map
        (fun r => { r with customer_type := r.customer_type.map replaceCT })).filterMap
          (fun r => r.customer_type) := by
      obtain ⟨r0, hr0, hv⟩ := h
      cases hv0 : r0.customer_type with
      | none => exact absurd hv0 hv
      | some v0 =>
        refine ⟨replaceCT v0, List.mem_filterMap.mpr
          ⟨{ r0 with customer_type := r0.customer_type.map replaceCT },
            List.mem_map_of_mem _ hr0, ?_⟩⟩
        rw [hv0]
        rfl
    have hne : (df.rows.map
        (fun r => { r with customer_type := r.customer_type.map replaceCT })).filterMap
          (fun r => r.customer_type) ≠ [] := by
      obtain ⟨v, hv⟩ := hmem
      intro hnil
      rw [hnil] at hv
      exact absurd hv (List.not_mem_nil v)
    have hm := seriesMode_isSome _ hne
    simp only [hct, Option.map_none, Option.none_orElse]
    exact Option.isSome_iff_ne_none.mp hm

/-- C8 (counterexample): on the concrete table `exClean`, `cleaning` (without
the area option) succeeds but its result has no `customer_type` column at
all — `grouping` aggregates `df.groupby(nine dims)[['qty']].sum()`, which
drops every other column — so the claim that the filled `customer_type`
column is present in the table `cleaning` returns is false. -/
theorem customer_type_dropped_cex :
    cleaning exClean [] false = Except.ok (grouping (replacing_values exClean))
    ∧ "customer_type" ∉ (grouping (replacing_values exClean)).cols := by
  refine ⟨rfl, by decide⟩

/-- C8 (amended): `replacing_values` maps every raw `customer_type` code
through the fixed lookup and fills each remaining missing value with the
column's mode, so after it runs no `customer_type` value is missing (given at
least one value was present); but `grouping` then drops the column, so the
table `cleaning` returns does not contain `customer_type` at all. -/
theorem customer_type_filled_but_dropped (df : CDF)
    (h : ∃ r ∈ df.rows, r.customer_type ≠ none) :
    (∀ r ∈ (replacing_values df).rows, r.customer_type ≠ none)
    ∧ "customer_type" ∉ (grouping (replacing_values df)).cols
    ∧ cleaning df [] false = Except.ok (grouping (replacing_values df)) := by
  refine ⟨replacing_values_fills df h, ?_, rfl⟩
  show "customer_type" ∉ ["release", "brand", "planned_delivery_yearweek",
    "creation_yearweek", "customer", "customer_sold_to", "division", "dedalo_area",
    "acquisition_mode_group", "qty"]
  decide

/-- C8 (witness): the amended statement holds at the concrete table
`exClean`, which has a present `"BPF"` value. -/
theorem customer_type_filled_but_dropped_witness :
    (∀ r ∈ (replacing_values exClean).rows, r.customer_type ≠ none)
    ∧ "customer_type" ∉ (grouping (replacing_values exClean)).cols
    ∧ cleaning exClean [] false = Except.ok (grouping (replacing_values exClean)) :=
  customer_type_filled_but_dropped exClean
    ⟨exCleanRow "C1" (some "BPF") 3, by decide, by decide⟩

end AnalisiComp
